import Mathlib

/-!
Verification development for the `minivibe` PTY wrapper
(`src/pty-wrapper.py`).  The Python source is shallowly embedded below:
text is modelled as `List Char` (Python `str` code points), byte streams
as `List Nat`, and the `select`-driven relay loop of `main` as a step
function over an explicit trace of readiness events.  Theorems at the end
of the file settle the specification claims against this embedding.
-/

namespace PtyWrapper

/-! ### Basic text helpers (Python string primitives) -/

/-- Python whitespace test, ASCII fragment (`str.strip`, regex `\s`). -/
def isPySpace (c : Char) : Bool :=
  c = ' ' || c = '\t' || c = '\n' || c = '\r' || c = '\x0b' || c = '\x0c'

/-- Python `str.strip()`: drop leading and trailing whitespace. -/
def pyStrip (l : List Char) : List Char :=
  ((l.dropWhile isPySpace).reverse.dropWhile isPySpace).reverse

/-- Python `str.lower()` (ASCII fragment, which is all the wrapper needs). -/
def pyLower (l : List Char) : List Char := l.map Char.toLower

/-- Python `pat in s` substring test on strings. -/
def hasSub (pat : List Char) : List Char → Bool
  | [] => pat.isEmpty
  | c :: r => pat.isPrefixOf (c :: r) || hasSub pat r

/-- Python `text.split` on a newline: always returns at least one
(possibly empty) line, and a trailing newline yields a final empty line. -/
def splitLines : List Char → List (List Char)
  | [] => [[]]
  | c :: rest =>
    if c = '\n' then [] :: splitLines rest
    else
      match splitLines rest with
      | [] => [[c]]
      | l :: ls => (c :: l) :: ls

/-- Regex class `[a-zA-Z]` (the CSI final byte in `strip_ansi`). -/
def isAsciiLetter (c : Char) : Bool :=
  (65 ≤ c.toNat && c.toNat ≤ 90) || (97 ≤ c.toNat && c.toNat ≤ 122)

/-- Regex class `\d` as used on the wrapper's ASCII input (digits 0-9). -/
def isRegexDigit (c : Char) : Bool :=
  48 ≤ c.toNat && c.toNat ≤ 57

/-- Regex class `[0-9;]`: CSI parameter bytes accepted by `strip_ansi`. -/
def isCsiParamChar (c : Char) : Bool :=
  isRegexDigit c || c = ';'

/-! ### `strip_ansi` (pty-wrapper.py lines 38-41)

The Python pattern is
`\x1b\[[0-9;]*[a-zA-Z]|\x1b\].*?\x07|\x1b[PX^_].*?\x1b\\` applied with
`re.sub`: scan left to right, and at each escape character try the three
alternatives (their second characters are disjoint, so alternative order
reduces to a dispatch on the character after the escape).  `.` never
matches a newline, and the lazy `.*?` stops at the first terminator. -/

/-- Final-byte check of a CSI sequence: the character after the
parameter bytes must be an ASCII letter. -/
def csiFinish : List Char → Option (List Char)
  | [] => none
  | c :: r => if isAsciiLetter c then some r else none

/-- After `ESC [`: greedily consume `[0-9;]*`, then require one ASCII
letter; returns the remainder after the match. -/
def csiBody (l : List Char) : Option (List Char) :=
  csiFinish (l.dropWhile isCsiParamChar)

/-- After `ESC ]`: lazily consume characters (none may be a newline)
up to and including the first BEL. -/
def oscBody : List Char → Option (List Char)
  | [] => none
  | c :: r =>
    if c = '\x07' then some r
    else if c = '\n' then none
    else oscBody r

/-- After `ESC P`, `ESC X`, `ESC ^` or `ESC _`: lazily consume characters
(none may be a newline) up to and including the first `ESC \` pair. -/
def strBody : List Char → Option (List Char)
  | [] => none
  | [_] => none
  | c :: d :: r =>
    if c = '\x1b' ∧ d = '\\' then some r
    else if c = '\n' then none
    else strBody (d :: r)

/-- Dispatch on the character following an escape character: the three
regex alternatives of `strip_ansi`. -/
def matchEscTail : List Char → Option (List Char)
  | [] => none
  | c :: r =>
    if c = '[' then csiBody r
    else if c = ']' then oscBody r
    else if c = 'P' ∨ c = 'X' ∨ c = '^' ∨ c = '_' then strBody r
    else none

/-- Worker for `strip_ansi` with explicit fuel; `fuel ≥ l.length` makes
the fuel irrelevant (every recursive call shortens the list). -/
def stripGo : Nat → List Char → List Char
  | _, [] => []
  | 0, l => l
  | fuel + 1, c :: r =>
    if c = '\x1b' then
      match matchEscTail r with
      | some r2 => stripGo fuel r2
      | none => c :: stripGo fuel r
    else c :: stripGo fuel r

/-- Models `strip_ansi(text)`: delete every non-overlapping, leftmost match of
the escape-sequence pattern. -/
def strip_ansi (l : List Char) : List Char := stripGo l.length l

/-! ### `detect_permission_prompt` (pty-wrapper.py lines 43-84) -/

structure PromptOption where
  id : Nat
  label : List Char
  requiresInput : Bool
deriving DecidableEq

structure PromptEvent where
  question : List Char
  options : List PromptOption
deriving DecidableEq

def wantToText : List Char := "want to".data

def allowText : List Char := "allow".data

def proceedText : List Char := "proceed".data

def typeText : List Char := "type".data

def tellText : List Char := "tell".data

def permissionRequiredText : List Char := "Permission required".data

/-- Question-line test: the line (already stripped) contains one of the
fixed phrases case-insensitively and contains a question mark. -/
def isQuestionLine (l : List Char) : Bool :=
  (hasSub wantToText (pyLower l) || hasSub allowText (pyLower l)
      || hasSub proceedText (pyLower l))
    && l.contains '?'

/-- The char class `[â€º\s]` of the option-line regex: the three literal
characters (a mojibake rendering of an arrow glyph) or whitespace. -/
def isEnumLeadChar (c : Char) : Bool :=
  c = 'â' || c = '€' || c = 'º' || isPySpace c

/-- Python `int` on a digit string. -/
def natOfDigits (ds : List Char) : Nat :=
  ds.foldl (fun acc c => 10 * acc + (c.toNat - 48)) 0

/-- Models the anchored option-line regex match against one line: any run
of enumerator-glyph or whitespace characters, one or more digits (group 1,
read as an integer), a literal period, at least one whitespace character,
then the label running to the end of the line (group 2).
All character classes here are pairwise disjoint, so the greedy stars
never backtrack; and because the detector only applies this to lines that
were stripped and contain no newline, the regex branch in which `(.+)`
swallows trailing whitespace cannot arise. -/
def matchOptionLine (l : List Char) : Option (Nat × List Char) :=
  let l1 := l.dropWhile isEnumLeadChar
  let ds := l1.takeWhile isRegexDigit
  let r1 := l1.dropWhile isRegexDigit
  match r1 with
  | '.' :: r2 =>
    let sp := r2.takeWhile isPySpace
    let r3 := r2.dropWhile isPySpace
    if ds.isEmpty || sp.isEmpty || r3.isEmpty then none
    else some (natOfDigits ds, r3)
  | _ => none

/-- Models the freeform-flag computation: the Python membership tests of
the words type and tell on the lowercased label, which is the code's
realization of "the label mentions free-text entry". -/
def labelRequiresInput (label : List Char) : Bool :=
  hasSub typeText (pyLower label) || hasSub tellText (pyLower label)

/-- Question update of one line iteration: a matching stripped line
overwrites the question (so the last matching line wins). -/
def questionUpdate (q : Option (List Char)) (line : List Char) : Option (List Char) :=
  if isQuestionLine line then some line else q

/-- One iteration of the detector's line loop: strip the line, possibly
update the question, and append an option when the enumerator regex
matches (the stored label is the stripped group 2). -/
def scanLine (st : Option (List Char) × List PromptOption) (rawLine : List Char) :
    Option (List Char) × List PromptOption :=
  match matchOptionLine (pyStrip rawLine) with
  | some pr =>
    (questionUpdate st.1 (pyStrip rawLine),
      st.2 ++ [⟨pr.1, pyStrip pr.2, labelRequiresInput (pyStrip pr.2)⟩])
  | none => (questionUpdate st.1 (pyStrip rawLine), st.2)

/-- Final step of the detector: an event is built only when at least two
option lines matched.  A matched question line is never the empty
string, so Python's `question or` default coincides with `Option.getD`. -/
def buildEvent (r : Option (List Char) × List PromptOption) : Option PromptEvent :=
  if 2 ≤ r.2.length then some ⟨r.1.getD permissionRequiredText, r.2⟩
  else none

/-- Models `detect_permission_prompt(text)`: strip escapes, split into lines,
scan every line, and return an event only when at least two option lines
matched. -/
def detect_permission_prompt (text : List Char) : Option PromptEvent :=
  buildEvent ((splitLines (strip_ansi text)).foldl scanLine (none, []))

/-- Number of (stripped) lines of the escape-stripped text that match the
option-line regex; the detector appends exactly one option per such line. -/
def optionLineCount (text : List Char) : Nat :=
  (splitLines (strip_ansi text)).countP
    (fun l => (matchOptionLine (pyStrip l)).isSome)

/-! ### Geometry handling (`set_winsize`, `handle_sigwinch`,
pty-wrapper.py lines 33-36 and 156-164)

`os.get_terminal_size` reports the kernel `winsize` structure, whose
fields are unsigned 16-bit, so a successfully queried size is always
below 65536 — which is exactly the range `struct.pack` with format `H`
accepts in `set_winsize`. -/

structure Geometry where
  rows : Nat
  cols : Nat
deriving DecidableEq

/-- Models `set_winsize(fd, rows, cols)`: pack the size and apply it to the
terminal via the set-window-size control (the packed high words are 0). -/
def set_winsize (rows cols : Fin 65536) : Geometry :=
  ⟨rows.val, cols.val⟩

/-- Models `handle_sigwinch`: when stdin is a terminal, re-query its size and
apply it to the master side; a failing query (`OSError`) is ignored and,
when stdin is not a terminal, nothing happens.  `sz` is the result of
`os.get_terminal_size` (`none` models the `OSError` case); `g` is the
pseudo-terminal geometry before the signal. -/
def handle_sigwinch (stdinIsTty : Bool) (sz : Option (Fin 65536 × Fin 65536))
    (g : Geometry) : Geometry :=
  if stdinIsTty then
    match sz with
    | some rc => set_winsize rc.1 rc.2
    | none => g
  else g

/-! ### The relay loop of `main` (pty-wrapper.py lines 166-239)

The loop is driven by `select` readiness; we model one loop iteration by
the outcome of the two readiness branches plus the nonblocking `waitpid`
poll, and a whole execution by a list of such events.  A
`KeyboardInterrupt` (which in the source can arrive at any point of the
`try` body) is modelled as an event of its own at an iteration boundary,
and a `select.error` as the `continue` it triggers.  Mirror writes model
the `os.write(MIRROR_FD, ...)` call; its swallowed failures are not
distinguished from successes. -/

/-- Outcome of one readiness branch: not ready; `os.read` returned no
bytes (end of stream); a chunk was read and the following write
succeeded; `os.read` raised `OSError`; or a chunk was read and the write
that immediately follows it raised `OSError` (the chunk is lost). -/
inductive ReadOutcome where
  | notReady
  | eof
  | data (bs : List Nat)
  | readErr
  | writeErr (bs : List Nat)
deriving DecidableEq

/-- Outcome of the nonblocking `waitpid` poll at the end of an
iteration: child still running; exited with a status (`WIFEXITED`,
carrying `WEXITSTATUS`); or terminated abnormally. -/
inductive WaitOutcome where
  | running
  | exited (status : Nat)
  | signaled
deriving DecidableEq

/-- One scheduler event seen by the loop: a full iteration, a
`select.error` (the loop issues `continue`), or a `KeyboardInterrupt`
(the handler forwards SIGINT and collects `childStatus` via a blocking
`waitpid`). -/
inductive LoopEvent where
  | iter (stdin : ReadOutcome) (master : ReadOutcome) (wait : WaitOutcome)
  | selErr
  | interrupt (childStatus : Nat)
deriving DecidableEq

/-- Static configuration of a run: whether `has_mirror_fd()` holds, and
the permissive byte decoding (`bytes.decode` with replacement) used to
feed the detector. -/
structure Config where
  mirror : Bool
  decode : List Nat → List Char

/-- Mutable state of the loop: the global `output_buffer` plus the
observable outputs (bytes written to the master, to stdout, to the
mirror descriptor, prompts emitted on the prompt descriptor) and the
actions of the `KeyboardInterrupt` handler. -/
structure RelayState where
  buf : List Char
  masterOut : List Nat
  stdoutOut : List Nat
  mirrorOut : List Nat
  prompts : List PromptEvent
  sigintSent : Bool
  reaped : Option Nat
deriving DecidableEq

def initState : RelayState :=
  ⟨[], [], [], [], [], false, none⟩

inductive RunStatus where
  | running
  | finished (exitCode : Nat)
deriving DecidableEq

/-- Accumulate a decoded chunk into `output_buffer`, keeping only the
trailing 2048 characters when the append overflows (the Python slice
`output_buffer[-2048:]`). -/
def updateBuffer (buf t : List Char) : List Char :=
  if 2048 < (buf ++ t).length then (buf ++ t).drop ((buf ++ t).length - 2048)
  else buf ++ t

/-- Feed one decoded chunk to the detector: append to the buffer
(enforcing the cap), and on a detected prompt emit it and clear the
buffer. -/
def feedDetector (cfg : Config) (s : RelayState) (bs : List Nat) : RelayState :=
  match detect_permission_prompt (updateBuffer s.buf (cfg.decode bs)) with
  | some e => { s with buf := [], prompts := s.prompts ++ [e] }
  | none => { s with buf := updateBuffer s.buf (cfg.decode bs) }

/-- Handle a chunk read from the master side: write it to stdout, mirror
it when the mirror descriptor exists, then feed the detector. -/
def handleMaster (cfg : Config) (s : RelayState) (bs : List Nat) : RelayState :=
  feedDetector cfg
    { s with
      stdoutOut := s.stdoutOut ++ bs
      mirrorOut := if cfg.mirror then s.mirrorOut ++ bs else s.mirrorOut }
    bs

/-- Effect of the stdin branch when it does not break: forward a read
chunk verbatim to the master side. -/
def stdinForward (s : RelayState) : ReadOutcome → RelayState
  | .data bs => { s with masterOut := s.masterOut ++ bs }
  | _ => s

/-- Effect of the master branch when it does not break: forward a read
chunk to stdout and the mirror and feed the detector. -/
def masterForward (cfg : Config) (s : RelayState) : ReadOutcome → RelayState
  | .data bs => handleMaster cfg s bs
  | _ => s

/-- One full loop iteration: the stdin branch (forward to the master, or
break on end-of-stream / `OSError`), then the master branch (forward to
stdout and mirror, feed the detector, or break), then the nonblocking
child poll (capture the exit status and break when the child is gone).
Every `break` leaves `exit_code` as it stands, which inside the loop is
always 0 except on the child-exit branch. -/
def stepIter (cfg : Config) (s : RelayState) (si mo : ReadOutcome)
    (w : WaitOutcome) : RelayState × RunStatus :=
  match si with
  | .eof => (s, .finished 0)
  | .readErr => (s, .finished 0)
  | .writeErr _ => (s, .finished 0)
  | _ =>
    match mo with
    | .eof => (stdinForward s si, .finished 0)
    | .readErr => (stdinForward s si, .finished 0)
    | .writeErr _ => (stdinForward s si, .finished 0)
    | _ =>
      match w with
      | .running => (masterForward cfg (stdinForward s si) mo, .running)
      | .exited n => (masterForward cfg (stdinForward s si) mo, .finished n)
      | .signaled => (masterForward cfg (stdinForward s si) mo, .finished 1)

/-- Process one scheduler event. -/
def stepEvent (cfg : Config) (s : RelayState) : LoopEvent → RelayState × RunStatus
  | .iter si mo w => stepIter cfg s si mo w
  | .selErr => (s, .running)
  | .interrupt cs =>
    ({ s with sigintSent := true, reaped := some cs }, .finished 0)

/-- The `while True` loop over a trace of events; stops at the first
terminating event, and is still `running` when the trace runs out. -/
def runLoop (cfg : Config) (s : RelayState) : List LoopEvent → RelayState × RunStatus
  | [] => (s, .running)
  | e :: es =>
    if (stepEvent cfg s e).2 = RunStatus.running then
      runLoop cfg (stepEvent cfg s e).1 es
    else stepEvent cfg s e

/-- Whether an event makes the loop terminate (break or interrupt). -/
def stopsRead : ReadOutcome → Bool
  | .notReady => false
  | .data _ => false
  | _ => true

def waitStops : WaitOutcome → Bool
  | .running => false
  | _ => true

def eventStops : LoopEvent → Bool
  | .iter si mo w => stopsRead si || stopsRead mo || waitStops w
  | .selErr => false
  | .interrupt _ => true

/-- Bytes an event reads from stdin and successfully forwards. -/
def stdinBytes : LoopEvent → List Nat
  | .iter (.data bs) _ _ => bs
  | _ => []

/-- Bytes an event reads from the master and successfully forwards. -/
def masterBytes : LoopEvent → List Nat
  | .iter _ (.data bs) _ => bs
  | _ => []

/-- Result of `main` after the fork: the relay loop followed by the
`finally` block (restore the terminal mode when stdin was a terminal,
close the master descriptor) and `sys.exit(exit_code)`.  When the event
trace is exhausted with the loop still running the process has not
exited, so the cleanup has not run and there is no exit code. -/
structure MainResult where
  final : RelayState
  cleanupCount : Nat
  restoredTermios : Bool
  closedMaster : Bool
  exitCode : Option Nat
deriving DecidableEq

def runMain (cfg : Config) (stdinIsTty : Bool) (events : List LoopEvent) :
    MainResult :=
  match (runLoop cfg initState events).2 with
  | .running => ⟨(runLoop cfg initState events).1, 0, false, false, none⟩
  | .finished n => ⟨(runLoop cfg initState events).1, 1, stdinIsTty, true, some n⟩

/-! ### Escape-sequence shapes recognized by `strip_ansi`

`EscSeq s` holds exactly when `s` is one complete match of one of the
three regex alternatives: a CSI sequence with digit-or-semicolon
parameter bytes and an ASCII-letter final byte; an OSC sequence
terminated by the first BEL with no newline before it; or a
P/X/caret/underscore string sequence terminated by the first escape-backslash
pair with no newline before it. -/
inductive EscSeq : List Char → Prop where
  | csi (params : List Char) (fin : Char) :
      (∀ c ∈ params, isCsiParamChar c = true) → isAsciiLetter fin = true →
      EscSeq ('\x1b' :: '[' :: (params ++ [fin]))
  | osc (body : List Char) :
      (∀ c ∈ body, c ≠ '\x07' ∧ c ≠ '\n') →
      EscSeq ('\x1b' :: ']' :: (body ++ ['\x07']))
  | strseq (ic : Char) (body : List Char) :
      (ic = 'P' ∨ ic = 'X' ∨ ic = '^' ∨ ic = '_') →
      (∀ c ∈ body, c ≠ '\n') → ¬ (['\x1b', '\\'] <:+: body) →
      EscSeq ('\x1b' :: ic :: (body ++ ['\x1b', '\\']))

/-! ### Concrete sample inputs used by the claim instances -/

def proceedSample : List Char :=
  ("\x1b[2J\x1b[1mDo you want to proceed?\x1b[0m\n\x1b]0;win\x07\x1b[32m1. Yes\x1b[0m\n\x1b[33m2. No\x1b[0m\n").data

def proceedQuestion : List Char := ("Do you want to proceed?").data

def yesText : List Char := ("Yes").data

def noText : List Char := ("No").data

def customSample : List Char := ("1. Yes\n3. Type a custom response").data

def customLabel : List Char := ("Type a custom response").data

/-- A CSI sequence with a private-mode parameter byte (hide cursor),
common in real terminal output but outside the stripper's pattern. -/
def privateCsiSample : List Char := ("\x1b[?25l").data

/-- A concrete configuration for instantiating the loop theorems: the
mirror descriptor exists, and decoding is irrelevant to the relay. -/
def cfg0 : Config := ⟨true, fun _ => []⟩

/-- A concrete quiet trace: two data iterations around a select error. -/
def evts1 : List LoopEvent :=
  [.iter (.data [104, 105]) (.data [111]) .running, .selErr,
    .iter .notReady (.data [33]) .running]

end PtyWrapper

namespace PtyWrapper

/-! ## Helper lemmas about the detector and the accumulator -/

theorem scanLine_options_length (st : Option (List Char) × List PromptOption)
    (l : List Char) :
    ((scanLine st l).2).length =
      st.2.length + (if (matchOptionLine (pyStrip l)).isSome then 1 else 0) := by
  unfold scanLine
  cases h : matchOptionLine (pyStrip l) <;> simp [h]

theorem foldl_scanLine_length (lines : List (List Char)) :
    ∀ st : Option (List Char) × List PromptOption,
      ((lines.foldl scanLine st).2).length =
        st.2.length + lines.countP (fun l => (matchOptionLine (pyStrip l)).isSome) := by
  induction lines with
  | nil => intro st; simp
  | cons l ls ih =>
    intro st
    rw [List.foldl_cons, ih, List.countP_cons, scanLine_options_length]
    omega

theorem scanLine_requiresInput_inv (lines : List (List Char)) :
    ∀ st : Option (List Char) × List PromptOption,
      (∀ o ∈ st.2, o.requiresInput = labelRequiresInput o.label) →
      ∀ o ∈ (lines.foldl scanLine st).2,
        o.requiresInput = labelRequiresInput o.label := by
  induction lines with
  | nil => intro st h; simpa using h
  | cons l ls ih =>
    intro st h
    rw [List.foldl_cons]
    apply ih
    unfold scanLine
    cases hm : matchOptionLine (pyStrip l) with
    | none => simpa using h
    | some pr =>
      intro o ho
      simp only at ho
      rcases List.mem_append.mp ho with h1 | h2
      · exact h o h1
      · rcases List.mem_singleton.mp h2 with rfl
        rfl

theorem updateBuffer_le (buf t : List Char) : (updateBuffer buf t).length ≤ 2048 := by
  unfold updateBuffer
  split
  · rw [List.length_drop]; omega
  · omega

theorem updateBuffer_suffix (buf t : List Char) : updateBuffer buf t <:+ buf ++ t := by
  unfold updateBuffer
  split
  · exact List.drop_suffix _ _
  · exact List.suffix_refl _

theorem updateBuffer_overflow (buf t : List Char) (h : 2048 < (buf ++ t).length) :
    updateBuffer buf t = (buf ++ t).drop ((buf ++ t).length - 2048) ∧
      (updateBuffer buf t).length = 2048 := by
  unfold updateBuffer
  rw [if_pos h]
  exact ⟨rfl, by rw [List.length_drop]; omega⟩

theorem feedDetector_buf_le (cfg : Config) (s : RelayState) (bs : List Nat) :
    ((feedDetector cfg s bs).buf).length ≤ 2048 := by
  unfold feedDetector
  cases h : detect_permission_prompt (updateBuffer s.buf (cfg.decode bs)) <;>
    simp [h, updateBuffer_le]

theorem handleMaster_buf_le (cfg : Config) (s : RelayState) (bs : List Nat) :
    ((handleMaster cfg s bs).buf).length ≤ 2048 :=
  feedDetector_buf_le _ _ _

theorem stdinForward_buf (s : RelayState) (si : ReadOutcome) :
    (stdinForward s si).buf = s.buf := by
  cases si <;> rfl

theorem masterForward_buf_le (cfg : Config) (s : RelayState) (mo : ReadOutcome)
    (hs : s.buf.length ≤ 2048) : ((masterForward cfg s mo).buf).length ≤ 2048 := by
  cases mo <;> simp [masterForward, hs, handleMaster_buf_le]

theorem stepIter_buf_le (cfg : Config) (s : RelayState) (si mo : ReadOutcome)
    (w : WaitOutcome) (hs : s.buf.length ≤ 2048) :
    ((stepIter cfg s si mo w).1.buf).length ≤ 2048 := by
  have hsf : ((stdinForward s si).buf).length ≤ 2048 := by
    rw [stdinForward_buf]; exact hs
  cases si with
  | eof => exact hs
  | readErr => exact hs
  | writeErr b => exact hs
  | notReady =>
    cases mo with
    | eof => exact hsf
    | readErr => exact hsf
    | writeErr b => exact hsf
    | notReady => cases w <;> exact masterForward_buf_le _ _ _ hsf
    | data b => cases w <;> exact masterForward_buf_le _ _ _ hsf
  | data a =>
    cases mo with
    | eof => exact hsf
    | readErr => exact hsf
    | writeErr b => exact hsf
    | notReady => cases w <;> exact masterForward_buf_le _ _ _ hsf
    | data b => cases w <;> exact masterForward_buf_le _ _ _ hsf

theorem stepEvent_buf_le (cfg : Config) (s : RelayState) (e : LoopEvent)
    (hs : s.buf.length ≤ 2048) :
    ((stepEvent cfg s e).1.buf).length ≤ 2048 := by
  cases e with
  | iter si mo w => exact stepIter_buf_le cfg s si mo w hs
  | selErr => exact hs
  | interrupt cs => exact hs

theorem runLoop_buf_le (cfg : Config) (evts : List LoopEvent) :
    ∀ s : RelayState, s.buf.length ≤ 2048 →
      ((runLoop cfg s evts).1.buf).length ≤ 2048 := by
  induction evts with
  | nil => intro s hs; exact hs
  | cons e es ih =>
    intro s hs
    simp only [runLoop]
    split
    · exact ih _ (stepEvent_buf_le cfg s e hs)
    · exact stepEvent_buf_le cfg s e hs

/-! ## Claim theorems: detector and accumulator -/

/-- C5: feeding the detector escape-sequence-laden text containing the
line with the proceed question followed by the option lines numbered 1
and 2 yields a `PromptEvent` with that question and exactly the two
options with ids 1 and 2, neither requiring freeform input. -/
theorem detect_proceed_prompt :
    detect_permission_prompt proceedSample =
      some ⟨proceedQuestion, [⟨1, yesText, false⟩, ⟨2, noText, false⟩]⟩ := by
  decide

/-- C6: the detector returns an event exactly when at least two lines of
the escape-stripped buffered text match the option-line pattern; with
fewer than two such lines it returns `none`. -/
theorem detect_needs_two_option_lines (t : List Char) :
    (detect_permission_prompt t).isSome = decide (2 ≤ optionLineCount t) := by
  have h := foldl_scanLine_length (splitLines (strip_ansi t)) (none, [])
  simp only [List.length_nil, Nat.zero_add] at h
  unfold detect_permission_prompt buildEvent optionLineCount
  rw [h]
  by_cases h2 : 2 ≤ (splitLines (strip_ansi t)).countP
      (fun l => (matchOptionLine (pyStrip l)).isSome) <;>
    simp [h2]

/-- C7: the output accumulator never exceeds 2048 characters: a single
update always yields at most 2048 characters and a suffix of the
appended text; an overflowing append keeps exactly the most recent 2048
characters; and along any run of the relay loop the buffer stays within
the cap. -/
theorem accumulator_bounded :
    (∀ buf t : List Char,
      (updateBuffer buf t).length ≤ 2048 ∧ updateBuffer buf t <:+ buf ++ t) ∧
    (∀ buf t : List Char, 2048 < (buf ++ t).length →
      updateBuffer buf t = (buf ++ t).drop ((buf ++ t).length - 2048) ∧
        (updateBuffer buf t).length = 2048) ∧
    (∀ (cfg : Config) (evts : List LoopEvent),
      ((runLoop cfg initState evts).1.buf).length ≤ 2048) :=
  ⟨fun buf t => ⟨updateBuffer_le buf t, updateBuffer_suffix buf t⟩,
   fun buf t h => updateBuffer_overflow buf t h,
   fun cfg evts => runLoop_buf_le cfg evts initState (by simp [initState])⟩

/-- Witness for C7 at a concrete overflowing append: 2049 characters
truncate to the most recent 2048. -/
theorem accumulator_bounded_witness :
    updateBuffer (List.replicate 2049 'a') [] =
        (List.replicate 2049 'a' ++ []).drop
          ((List.replicate 2049 'a' ++ []).length - 2048) ∧
      (updateBuffer (List.replicate 2049 'a') []).length = 2048 :=
  accumulator_bounded.2.1 (List.replicate 2049 'a') []
    (by rw [List.append_nil, List.length_replicate]; omega)

/-- C9: every option the detector emits carries the freeform-input flag
computed from its own label (true exactly when the lowercased label
contains one of the free-text phrases), and in particular the option line
numbered 3 with the custom-response label yields id 3 with the flag set. -/
theorem option_requiresInput_matches_label :
    (∀ (t : List Char) (e : PromptEvent) (o : PromptOption),
        detect_permission_prompt t = some e → o ∈ e.options →
          o.requiresInput = labelRequiresInput o.label) ∧
    detect_permission_prompt customSample =
      some ⟨permissionRequiredText, [⟨1, yesText, false⟩, ⟨3, customLabel, true⟩]⟩ := by
  constructor
  · intro t e o hd ho
    unfold detect_permission_prompt buildEvent at hd
    split at hd
    · cases hd
      exact scanLine_requiresInput_inv (splitLines (strip_ansi t)) (none, [])
        (by intro o ho; simp at ho) o ho
    · cases hd
  · decide

/-- Witness for C9: the general clause applied to the concrete custom
prompt and its id-3 option. -/
theorem option_requiresInput_matches_label_witness :
    (⟨3, customLabel, true⟩ : PromptOption).requiresInput =
      labelRequiresInput ((⟨3, customLabel, true⟩ : PromptOption).label) :=
  option_requiresInput_matches_label.1 customSample
    ⟨permissionRequiredText, [⟨1, yesText, false⟩, ⟨3, customLabel, true⟩]⟩
    ⟨3, customLabel, true⟩ option_requiresInput_matches_label.2 (by decide)

/-! ## Lemmas about `strip_ansi` -/

theorem stripGo_succ (f : Nat) (c : Char) (l : List Char) :
    stripGo (f + 1) (c :: l) =
      if c = '\x1b' then
        match matchEscTail l with
        | some r2 => stripGo f r2
        | none => c :: stripGo f l
      else c :: stripGo f l := rfl

theorem csiFinish_lt {l r : List Char} (h : csiFinish l = some r) :
    r.length < l.length := by
  cases l with
  | nil => cases h
  | cons c cs =>
    simp only [csiFinish] at h
    split at h
    · have hr : cs = r := by injection h
      subst hr
      simp only [List.length_cons]
      omega
    · cases h

theorem csiBody_lt {l r : List Char} (h : csiBody l = some r) : r.length < l.length := by
  have h1 := csiFinish_lt h
  have h2 : (l.dropWhile isCsiParamChar).length ≤ l.length :=
    (List.dropWhile_suffix _).length_le
  omega

theorem oscBody_lt : ∀ {l r : List Char}, oscBody l = some r → r.length < l.length := by
  intro l
  induction l with
  | nil => intro r h; cases h
  | cons c cs ih =>
    intro r h
    unfold oscBody at h
    split at h
    · have hr : cs = r := by injection h
      subst hr
      simp only [List.length_cons]
      omega
    · split at h
      · cases h
      · have := ih h
        simp only [List.length_cons]
        omega

theorem strBody_lt : ∀ {l r : List Char}, strBody l = some r → r.length < l.length := by
  intro l
  induction l with
  | nil => intro r h; cases h
  | cons c cs ih =>
    intro r h
    cases cs with
    | nil => cases h
    | cons d ds =>
      unfold strBody at h
      split at h
      · have hr : ds = r := by injection h
        subst hr
        simp only [List.length_cons]
        omega
      · split at h
        · cases h
        · have := ih h
          simp only [List.length_cons] at this ⊢
          omega

theorem matchEscTail_csi (r : List Char) : matchEscTail ('[' :: r) = csiBody r := by
  simp [matchEscTail]

theorem matchEscTail_osc (r : List Char) : matchEscTail (']' :: r) = oscBody r := by
  simp [matchEscTail]

theorem matchEscTail_str (c : Char) (hc : c = 'P' ∨ c = 'X' ∨ c = '^' ∨ c = '_')
    (r : List Char) : matchEscTail (c :: r) = strBody r := by
  rcases hc with rfl | rfl | rfl | rfl <;> simp [matchEscTail]

theorem matchEscTail_lt {l r : List Char} (h : matchEscTail l = some r) :
    r.length < l.length := by
  cases l with
  | nil => cases h
  | cons c cs =>
    simp only [matchEscTail] at h
    simp only [List.length_cons]
    by_cases h1 : c = '['
    · rw [if_pos h1] at h
      have := csiBody_lt h
      omega
    · rw [if_neg h1] at h
      by_cases h2 : c = ']'
      · rw [if_pos h2] at h
        have := oscBody_lt h
        omega
      · rw [if_neg h2] at h
        by_cases h3 : c = 'P' ∨ c = 'X' ∨ c = '^' ∨ c = '_'
        · rw [if_pos h3] at h
          have := strBody_lt h
          omega
        · rw [if_neg h3] at h
          cases h

theorem stripGo_congr : ∀ (f1 : Nat) (l : List Char) (f2 : Nat),
    l.length ≤ f1 → l.length ≤ f2 → stripGo f1 l = stripGo f2 l := by
  intro f1
  induction f1 with
  | zero =>
    intro l f2 h1 h2
    have hl : l = [] := List.eq_nil_of_length_eq_zero (Nat.le_zero.mp h1)
    subst hl
    cases f2 <;> rfl
  | succ f ih =>
    intro l f2 h1 h2
    cases l with
    | nil => cases f2 <;> rfl
    | cons c cs =>
      simp only [List.length_cons] at h1 h2
      cases f2 with
      | zero => omega
      | succ f2p =>
        rw [stripGo_succ, stripGo_succ]
        by_cases hc : c = '\x1b'
        · rw [if_pos hc, if_pos hc]
          cases hm : matchEscTail cs with
          | some r2 =>
            have hlt := matchEscTail_lt hm
            exact ih r2 f2p (by omega) (by omega)
          | none =>
            rw [ih cs f2p (by omega) (by omega)]
        · rw [if_neg hc, if_neg hc, ih cs f2p (by omega) (by omega)]

theorem strip_ansi_cons_noesc (c : Char) (l : List Char) (hc : c ≠ '\x1b') :
    strip_ansi (c :: l) = c :: strip_ansi l := by
  show stripGo (c :: l).length (c :: l) = c :: stripGo l.length l
  rw [List.length_cons, stripGo_succ, if_neg hc]

theorem strip_ansi_esc_match (l r : List Char) (hm : matchEscTail l = some r) :
    strip_ansi ('\x1b' :: l) = strip_ansi r := by
  show stripGo ('\x1b' :: l).length ('\x1b' :: l) = stripGo r.length r
  rw [List.length_cons, stripGo_succ, if_pos rfl, hm]
  exact stripGo_congr l.length r r.length (Nat.le_of_lt (matchEscTail_lt hm))
    (Nat.le_refl _)

theorem strip_ansi_append_noesc (pre rest : List Char)
    (h : ∀ c ∈ pre, c ≠ '\x1b') :
    strip_ansi (pre ++ rest) = pre ++ strip_ansi rest := by
  induction pre with
  | nil => rfl
  | cons c p ih =>
    rw [List.cons_append, strip_ansi_cons_noesc _ _ (h c (by simp)),
      ih (fun d hd => h d (by simp [hd])), List.cons_append]

theorem isAsciiLetter_not_param {c : Char} (h : isAsciiLetter c = true) :
    isCsiParamChar c = false := by
  have hne : c ≠ ';' := by
    intro hc
    subst hc
    exact absurd h (by decide)
  have hnd : isRegexDigit c = false := by
    unfold isAsciiLetter at h
    unfold isRegexDigit
    simp only [Bool.or_eq_true, Bool.and_eq_true, decide_eq_true_eq] at h
    rw [Bool.eq_false_iff]
    intro hd
    simp only [Bool.and_eq_true, decide_eq_true_eq] at hd
    omega
  unfold isCsiParamChar
  rw [hnd]
  simp [hne]

theorem csiBody_full (params : List Char) (fin : Char) (rest : List Char)
    (hp : ∀ c ∈ params, isCsiParamChar c = true) (hf : isAsciiLetter fin = true) :
    csiBody (params ++ fin :: rest) = some rest := by
  unfold csiBody
  rw [List.dropWhile_append_of_pos hp, List.dropWhile_cons,
    isAsciiLetter_not_param hf]
  simp only [Bool.false_eq_true, if_false]
  simp only [csiFinish]
  rw [if_pos hf]

theorem oscBody_full (body : List Char) (h : ∀ c ∈ body, c ≠ '\x07' ∧ c ≠ '\n') :
    ∀ rest : List Char, oscBody (body ++ '\x07' :: rest) = some rest := by
  induction body with
  | nil => intro rest; simp [oscBody]
  | cons c bs ih =>
    intro rest
    have hc := h c (by simp)
    rw [List.cons_append]
    simp only [oscBody]
    rw [if_neg hc.1, if_neg hc.2]
    exact ih (fun d hd => h d (by simp [hd])) rest

theorem strBody_full : ∀ (body : List Char), (∀ c ∈ body, c ≠ '\n') →
    ¬ (['\x1b', '\\'] <:+: body) →
    ∀ rest : List Char, strBody (body ++ '\x1b' :: '\\' :: rest) = some rest := by
  intro body
  induction body with
  | nil =>
    intro _ _ rest
    show strBody ('\x1b' :: '\\' :: rest) = some rest
    simp [strBody]
  | cons c bs ih =>
    intro h hni rest
    cases bs with
    | nil =>
      show strBody (c :: '\x1b' :: '\\' :: rest) = some rest
      simp only [strBody]
      rw [if_neg (fun hpair => absurd hpair.2 (by decide)),
        if_neg (h c (by simp))]
      simp [strBody]
    | cons b bs2 =>
      show strBody (c :: b :: (bs2 ++ '\x1b' :: '\\' :: rest)) = some rest
      simp only [strBody]
      have hcond : ¬ (c = '\x1b' ∧ b = '\\') := by
        intro hpair
        exact hni ⟨[], bs2, by simp [hpair.1, hpair.2]⟩
      rw [if_neg hcond, if_neg (h c (by simp))]
      refine ih (fun d hd => h d (by simp [hd])) ?_ rest
      intro hinf
      rcases hinf with ⟨x, y, hxy⟩
      exact hni ⟨c :: x, y, by rw [List.cons_append, List.cons_append, hxy]⟩

theorem strip_ansi_escSeq (s : List Char) (hs : EscSeq s) (suf : List Char) :
    strip_ansi (s ++ suf) = strip_ansi suf := by
  cases hs with
  | csi params fin hp hf =>
    have hm : matchEscTail ('[' :: ((params ++ [fin]) ++ suf)) = some suf := by
      rw [matchEscTail_csi, List.append_assoc, List.singleton_append]
      exact csiBody_full params fin suf hp hf
    calc strip_ansi (('\x1b' :: '[' :: (params ++ [fin])) ++ suf)
        = strip_ansi ('\x1b' :: '[' :: ((params ++ [fin]) ++ suf)) := by
          simp
      _ = strip_ansi suf := strip_ansi_esc_match _ _ hm
  | osc body hb =>
    have hm : matchEscTail (']' :: ((body ++ ['\x07']) ++ suf)) = some suf := by
      rw [matchEscTail_osc, List.append_assoc, List.singleton_append]
      exact oscBody_full body hb suf
    calc strip_ansi (('\x1b' :: ']' :: (body ++ ['\x07'])) ++ suf)
        = strip_ansi ('\x1b' :: ']' :: ((body ++ ['\x07']) ++ suf)) := by
          simp
      _ = strip_ansi suf := strip_ansi_esc_match _ _ hm
  | strseq ic body hic hb hni =>
    have hm : matchEscTail (ic :: ((body ++ ['\x1b', '\\']) ++ suf)) = some suf := by
      rw [matchEscTail_str ic hic, List.append_assoc]
      show strBody (body ++ '\x1b' :: '\\' :: suf) = some suf
      exact strBody_full body hb hni suf
    calc strip_ansi (('\x1b' :: ic :: (body ++ ['\x1b', '\\'])) ++ suf)
        = strip_ansi ('\x1b' :: ic :: ((body ++ ['\x1b', '\\']) ++ suf)) := by
          simp
      _ = strip_ansi suf := strip_ansi_esc_match _ _ hm

/-! ## Claim theorems: `strip_ansi` -/

/-- C8 counterexample: the stripper leaves a CSI sequence with a
private-mode parameter byte entirely in place, so the line matcher does
observe raw control bytes; the claim that every terminal escape sequence
is removed is false of the code. -/
theorem strip_ansi_misses_private_csi :
    strip_ansi privateCsiSample = privateCsiSample ∧
      '\x1b' ∈ strip_ansi privateCsiSample := by
  decide

/-- C8 amended: the stripper removes every escape sequence of the three
shapes its pattern recognizes — CSI sequences whose parameter bytes are
digits or semicolons ending in an ASCII letter, OSC sequences terminated
by the first BEL, and P/X/caret/underscore string sequences terminated by the
first escape-backslash pair — when it occurs after escape-free text;
sequences outside these shapes can survive (see the counterexample). -/
theorem strip_ansi_removes_known_sequences (pre s suf : List Char)
    (hpre : ∀ c ∈ pre, c ≠ '\x1b') (hs : EscSeq s) :
    strip_ansi (pre ++ s ++ suf) = pre ++ strip_ansi suf := by
  rw [List.append_assoc, strip_ansi_append_noesc pre _ hpre,
    strip_ansi_escSeq s hs suf]

/-- Witness for the amended C8: a color CSI sequence between plain
characters is removed. -/
theorem strip_ansi_removes_known_sequences_witness :
    strip_ansi (('a' :: 'b' :: []) ++ ('\x1b' :: '[' :: (['3', '1'] ++ ['m'])) ++
        ('c' :: 'd' :: [])) =
      ('a' :: 'b' :: []) ++ strip_ansi ('c' :: 'd' :: []) :=
  strip_ansi_removes_known_sequences _ _ _ (by decide)
    (EscSeq.csi ['3', '1'] 'm' (by decide) (by decide))

/-- C4: whenever the window-size handler runs while stdin is a terminal
and the size query succeeds, the pseudo-terminal geometry becomes the
queried size; a failing query or a non-terminal stdin leaves it
unchanged. -/
theorem sigwinch_updates_geometry :
    (∀ (r c : Fin 65536) (g : Geometry),
      handle_sigwinch true (some (r, c)) g = ⟨r.val, c.val⟩) ∧
    (∀ g : Geometry, handle_sigwinch true none g = g) ∧
    (∀ (sz : Option (Fin 65536 × Fin 65536)) (g : Geometry),
      handle_sigwinch false sz g = g) :=
  ⟨fun _ _ _ => rfl, fun _ => rfl, fun _ _ => rfl⟩

/-! ## Lemmas about the relay loop -/

theorem feedDetector_outs (cfg : Config) (s : RelayState) (bs : List Nat) :
    (feedDetector cfg s bs).masterOut = s.masterOut ∧
    (feedDetector cfg s bs).stdoutOut = s.stdoutOut ∧
    (feedDetector cfg s bs).mirrorOut = s.mirrorOut := by
  unfold feedDetector
  cases h : detect_permission_prompt (updateBuffer s.buf (cfg.decode bs)) <;>
    simp [h]

theorem handleMaster_masterOut (cfg : Config) (s : RelayState) (bs : List Nat) :
    (handleMaster cfg s bs).masterOut = s.masterOut :=
  (feedDetector_outs cfg _ bs).1

theorem handleMaster_stdoutOut (cfg : Config) (s : RelayState) (bs : List Nat) :
    (handleMaster cfg s bs).stdoutOut = s.stdoutOut ++ bs :=
  (feedDetector_outs cfg _ bs).2.1

theorem handleMaster_mirrorOut (cfg : Config) (s : RelayState) (bs : List Nat) :
    (handleMaster cfg s bs).mirrorOut =
      s.mirrorOut ++ (if cfg.mirror then bs else []) := by
  unfold handleMaster
  rw [(feedDetector_outs cfg
    { s with
      stdoutOut := s.stdoutOut ++ bs
      mirrorOut := if cfg.mirror then s.mirrorOut ++ bs else s.mirrorOut } bs).2.2]
  show (if cfg.mirror then s.mirrorOut ++ bs else s.mirrorOut) =
    s.mirrorOut ++ (if cfg.mirror then bs else [])
  cases hc : cfg.mirror <;> simp [hc]

theorem stepIter_outs (cfg : Config) (s : RelayState) (si mo : ReadOutcome)
    (w : WaitOutcome) (hsi : stopsRead si = false) (hmo : stopsRead mo = false)
    (hw : waitStops w = false) :
    (stepIter cfg s si mo w).1.masterOut =
        s.masterOut ++ stdinBytes (.iter si mo w) ∧
    (stepIter cfg s si mo w).1.stdoutOut =
        s.stdoutOut ++ masterBytes (.iter si mo w) ∧
    (stepIter cfg s si mo w).1.mirrorOut =
        s.mirrorOut ++ (if cfg.mirror then masterBytes (.iter si mo w) else []) ∧
    (stepIter cfg s si mo w).2 = RunStatus.running := by
  cases si with
  | eof => simp [stopsRead] at hsi
  | readErr => simp [stopsRead] at hsi
  | writeErr b => simp [stopsRead] at hsi
  | notReady =>
    cases mo with
    | eof => simp [stopsRead] at hmo
    | readErr => simp [stopsRead] at hmo
    | writeErr b => simp [stopsRead] at hmo
    | notReady =>
      cases w with
      | exited n => simp [waitStops] at hw
      | signaled => simp [waitStops] at hw
      | running =>
        simp [stepIter, stdinForward, masterForward, stdinBytes, masterBytes,
          handleMaster_masterOut, handleMaster_stdoutOut, handleMaster_mirrorOut]
    | data b =>
      cases w with
      | exited n => simp [waitStops] at hw
      | signaled => simp [waitStops] at hw
      | running =>
        simp [stepIter, stdinForward, masterForward, stdinBytes, masterBytes,
          handleMaster_masterOut, handleMaster_stdoutOut, handleMaster_mirrorOut]
  | data a =>
    cases mo with
    | eof => simp [stopsRead] at hmo
    | readErr => simp [stopsRead] at hmo
    | writeErr b => simp [stopsRead] at hmo
    | notReady =>
      cases w with
      | exited n => simp [waitStops] at hw
      | signaled => simp [waitStops] at hw
      | running =>
        simp [stepIter, stdinForward, masterForward, stdinBytes, masterBytes,
          handleMaster_masterOut, handleMaster_stdoutOut, handleMaster_mirrorOut]
    | data b =>
      cases w with
      | exited n => simp [waitStops] at hw
      | signaled => simp [waitStops] at hw
      | running =>
        simp [stepIter, stdinForward, masterForward, stdinBytes, masterBytes,
          handleMaster_masterOut, handleMaster_stdoutOut, handleMaster_mirrorOut]

theorem stepEvent_outs (cfg : Config) (s : RelayState) (e : LoopEvent)
    (he : eventStops e = false) :
    (stepEvent cfg s e).1.masterOut = s.masterOut ++ stdinBytes e ∧
    (stepEvent cfg s e).1.stdoutOut = s.stdoutOut ++ masterBytes e ∧
    (stepEvent cfg s e).1.mirrorOut =
      s.mirrorOut ++ (if cfg.mirror then masterBytes e else []) ∧
    (stepEvent cfg s e).2 = RunStatus.running := by
  cases e with
  | iter si mo w =>
    simp only [eventStops, Bool.or_eq_false_iff] at he
    exact stepIter_outs cfg s si mo w he.1.1 he.1.2 he.2
  | selErr => simp [stepEvent, stdinBytes, masterBytes]
  | interrupt cs => simp [eventStops] at he

theorem runLoop_relay (cfg : Config) (evts : List LoopEvent) :
    ∀ s : RelayState, (∀ e ∈ evts, eventStops e = false) →
      (runLoop cfg s evts).1.masterOut =
          s.masterOut ++ (evts.map stdinBytes).flatten ∧
      (runLoop cfg s evts).1.stdoutOut =
          s.stdoutOut ++ (evts.map masterBytes).flatten ∧
      (runLoop cfg s evts).1.mirrorOut =
          s.mirrorOut ++ (if cfg.mirror then (evts.map masterBytes).flatten else []) ∧
      (runLoop cfg s evts).2 = RunStatus.running := by
  induction evts with
  | nil =>
    intro s _
    refine ⟨by simp [runLoop], by simp [runLoop], ?_, rfl⟩
    cases hc : cfg.mirror <;> simp [runLoop]
  | cons e es ih =>
    intro s h
    obtain ⟨h1, h2, h3, h4⟩ := stepEvent_outs cfg s e (h e (by simp))
    obtain ⟨g1, g2, g3, g4⟩ :=
      ih (stepEvent cfg s e).1 (fun e2 he2 => h e2 (by simp [he2]))
    simp only [runLoop]
    rw [if_pos h4]
    refine ⟨?_, ?_, ?_, g4⟩
    · rw [g1, h1, List.map_cons, List.flatten_cons, List.append_assoc]
    · rw [g2, h2, List.map_cons, List.flatten_cons, List.append_assoc]
    · rw [g3, h3, List.map_cons, List.flatten_cons]
      cases hc : cfg.mirror <;> simp

theorem runLoop_append_nonstop (cfg : Config) (pre : List LoopEvent) :
    ∀ s : RelayState, (∀ e ∈ pre, eventStops e = false) →
      ∀ rest : List LoopEvent,
        runLoop cfg s (pre ++ rest) = runLoop cfg (runLoop cfg s pre).1 rest := by
  induction pre with
  | nil => intro s _ rest; rfl
  | cons e es ih =>
    intro s h rest
    have h4 := (stepEvent_outs cfg s e (h e (by simp))).2.2.2
    simp only [List.cons_append, runLoop]
    rw [if_pos h4, if_pos h4]
    exact ih _ (fun x hx => h x (by simp [hx])) rest

theorem runMain_final (cfg : Config) (tty : Bool) (evts : List LoopEvent) :
    (runMain cfg tty evts).final = (runLoop cfg initState evts).1 := by
  rcases hst : (runLoop cfg initState evts).2 with _ | n <;>
    simp [runMain, hst]

theorem runMain_exit_of_last (cfg : Config) (tty : Bool) (pre : List LoopEvent)
    (hpre : ∀ e ∈ pre, eventStops e = false) (e : LoopEvent) (k : Nat)
    (hk : ∀ s : RelayState, (stepEvent cfg s e).2 = RunStatus.finished k) :
    (runMain cfg tty (pre ++ [e])).exitCode = some k := by
  have hst : (runLoop cfg initState (pre ++ [e])).2 = RunStatus.finished k := by
    rw [runLoop_append_nonstop cfg pre initState hpre]
    simp only [runLoop]
    rw [if_neg (by simp [hk])]
    exact hk _
  simp [runMain, hst]

theorem runLoop_last_state (cfg : Config) (pre : List LoopEvent)
    (hpre : ∀ e ∈ pre, eventStops e = false) (e : LoopEvent) (k : Nat)
    (hk : ∀ s : RelayState, (stepEvent cfg s e).2 = RunStatus.finished k) :
    (runLoop cfg initState (pre ++ [e])).1 =
      (stepEvent cfg (runLoop cfg initState pre).1 e).1 := by
  rw [runLoop_append_nonstop cfg pre initState hpre]
  simp only [runLoop]
  rw [if_neg (by simp [hk])]

theorem stepIter_exited (cfg : Config) (s : RelayState) (si mo : ReadOutcome)
    (n : Nat) (hsi : stopsRead si = false) (hmo : stopsRead mo = false) :
    (stepIter cfg s si mo (.exited n)).2 = RunStatus.finished n := by
  cases si with
  | eof => simp [stopsRead] at hsi
  | readErr => simp [stopsRead] at hsi
  | writeErr b => simp [stopsRead] at hsi
  | notReady =>
    cases mo with
    | eof => simp [stopsRead] at hmo
    | readErr => simp [stopsRead] at hmo
    | writeErr b => simp [stopsRead] at hmo
    | notReady => rfl
    | data b => rfl
  | data a =>
    cases mo with
    | eof => simp [stopsRead] at hmo
    | readErr => simp [stopsRead] at hmo
    | writeErr b => simp [stopsRead] at hmo
    | notReady => rfl
    | data b => rfl

theorem stepIter_signaled (cfg : Config) (s : RelayState) (si mo : ReadOutcome)
    (hsi : stopsRead si = false) (hmo : stopsRead mo = false) :
    (stepIter cfg s si mo .signaled).2 = RunStatus.finished 1 := by
  cases si with
  | eof => simp [stopsRead] at hsi
  | readErr => simp [stopsRead] at hsi
  | writeErr b => simp [stopsRead] at hsi
  | notReady =>
    cases mo with
    | eof => simp [stopsRead] at hmo
    | readErr => simp [stopsRead] at hmo
    | writeErr b => simp [stopsRead] at hmo
    | notReady => rfl
    | data b => rfl
  | data a =>
    cases mo with
    | eof => simp [stopsRead] at hmo
    | readErr => simp [stopsRead] at hmo
    | writeErr b => simp [stopsRead] at hmo
    | notReady => rfl
    | data b => rfl

theorem stepIter_master_eof (cfg : Config) (s : RelayState) (si : ReadOutcome)
    (w : WaitOutcome) (hsi : stopsRead si = false) :
    (stepIter cfg s si .eof w).2 = RunStatus.finished 0 := by
  cases si with
  | eof => simp [stopsRead] at hsi
  | readErr => simp [stopsRead] at hsi
  | writeErr b => simp [stopsRead] at hsi
  | notReady => rfl
  | data a => rfl

/-! ## Claim theorems: the relay loop -/

/-- C1: over any trace of loop iterations that does not terminate the
loop, every chunk read from stdin is forwarded verbatim and in order to
the master side, and every chunk read from the master side is forwarded
verbatim and in order to stdout and, when the mirror descriptor exists,
to the mirror descriptor. -/
theorem relay_verbatim (cfg : Config) (tty : Bool) (evts : List LoopEvent)
    (h : ∀ e ∈ evts, eventStops e = false) :
    (runMain cfg tty evts).final.masterOut = (evts.map stdinBytes).flatten ∧
    (runMain cfg tty evts).final.stdoutOut = (evts.map masterBytes).flatten ∧
    (runMain cfg tty evts).final.mirrorOut =
      (if cfg.mirror then (evts.map masterBytes).flatten else []) := by
  obtain ⟨h1, h2, h3, _⟩ := runLoop_relay cfg evts initState h
  rw [runMain_final]
  exact ⟨by simpa [initState] using h1, by simpa [initState] using h2,
    by simpa [initState] using h3⟩

/-- Witness for C1 on a concrete three-event trace with the mirror
descriptor present. -/
theorem relay_verbatim_witness :
    (runMain cfg0 true evts1).final.masterOut = (evts1.map stdinBytes).flatten ∧
    (runMain cfg0 true evts1).final.stdoutOut = (evts1.map masterBytes).flatten ∧
    (runMain cfg0 true evts1).final.mirrorOut =
      (if cfg0.mirror then (evts1.map masterBytes).flatten else []) :=
  relay_verbatim cfg0 true evts1 (by decide)

/-- C2: when the nonblocking child poll observes a normal exit with
status `n` (and neither stream broke the loop in the same iteration),
the wrapper exits with status `n`; an abnormal child termination yields
exit status 1; and end-of-stream on either side before any observed
child exit yields exit status 0. -/
theorem exit_status_propagation (cfg : Config) (tty : Bool)
    (pre : List LoopEvent) (hpre : ∀ e ∈ pre, eventStops e = false)
    (si mo : ReadOutcome) (hsi : stopsRead si = false)
    (hmo : stopsRead mo = false) :
    (∀ n : Nat,
      (runMain cfg tty (pre ++ [.iter si mo (.exited n)])).exitCode = some n) ∧
    (runMain cfg tty (pre ++ [.iter si mo .signaled])).exitCode = some 1 ∧
    (∀ (mo2 : ReadOutcome) (w : WaitOutcome),
      (runMain cfg tty (pre ++ [.iter .eof mo2 w])).exitCode = some 0) ∧
    (∀ w : WaitOutcome,
      (runMain cfg tty (pre ++ [.iter si .eof w])).exitCode = some 0) := by
  refine ⟨fun n => runMain_exit_of_last cfg tty pre hpre _ n
      (fun s => stepIter_exited cfg s si mo n hsi hmo),
    runMain_exit_of_last cfg tty pre hpre _ 1
      (fun s => stepIter_signaled cfg s si mo hsi hmo),
    fun mo2 w => runMain_exit_of_last cfg tty pre hpre _ 0 (fun s => rfl),
    fun w => runMain_exit_of_last cfg tty pre hpre _ 0
      (fun s => stepIter_master_eof cfg s si w hsi)⟩

/-- Witness for C2: a child exit with status 7 after one quiet iteration
makes the wrapper exit 7. -/
theorem exit_status_propagation_witness :
    (runMain cfg0 true
      ([.selErr] ++ [.iter .notReady .notReady (.exited 7)])).exitCode = some 7 :=
  (exit_status_propagation cfg0 true [.selErr] (by decide)
    .notReady .notReady rfl rfl).1 7

/-- C3: the `finally` cleanup (restore the terminal mode exactly when
stdin was a terminal, close the master descriptor) runs exactly once on
every terminating run — end-of-stream, observed child exit, interrupt or
I/O error all produce a `finished` status, and every `finished` status
produces exactly one cleanup — and has not run while the loop is still
alive. -/
theorem cleanup_exactly_once (cfg : Config) (tty : Bool)
    (evts : List LoopEvent) :
    (runMain cfg tty evts).cleanupCount ≤ 1 ∧
    ((runMain cfg tty evts).exitCode.isSome = true →
      (runMain cfg tty evts).cleanupCount = 1 ∧
      (runMain cfg tty evts).restoredTermios = tty ∧
      (runMain cfg tty evts).closedMaster = true) ∧
    ((runMain cfg tty evts).exitCode = none →
      (runMain cfg tty evts).cleanupCount = 0) := by
  rcases hst : (runLoop cfg initState evts).2 with _ | n <;>
    simp [runMain, hst]

/-- Witness for C3 on the four exit paths: stdin end-of-stream, observed
child exit, user interrupt, and read error each run the cleanup once. -/
theorem cleanup_exactly_once_witness :
    (runMain cfg0 true [.iter .eof .notReady .running]).cleanupCount = 1 ∧
    (runMain cfg0 true [.iter .notReady .notReady (.exited 3)]).cleanupCount = 1 ∧
    (runMain cfg0 true [.interrupt 5]).cleanupCount = 1 ∧
    (runMain cfg0 true [.iter .readErr .notReady .running]).cleanupCount = 1 :=
  ⟨((cleanup_exactly_once cfg0 true _).2.1 (by decide)).1,
    ((cleanup_exactly_once cfg0 true _).2.1 (by decide)).1,
    ((cleanup_exactly_once cfg0 true _).2.1 (by decide)).1,
    ((cleanup_exactly_once cfg0 true _).2.1 (by decide)).1⟩

/-- C10: a `KeyboardInterrupt` during the relay forwards SIGINT to the
child, blocks until its status is collected, and then exits 0,
discarding the collected status. -/
theorem interrupt_discards_status (cfg : Config) (tty : Bool)
    (pre : List LoopEvent) (hpre : ∀ e ∈ pre, eventStops e = false)
    (cs : Nat) :
    (runMain cfg tty (pre ++ [.interrupt cs])).exitCode = some 0 ∧
    (runMain cfg tty (pre ++ [.interrupt cs])).final.sigintSent = true ∧
    (runMain cfg tty (pre ++ [.interrupt cs])).final.reaped = some cs := by
  have hk : ∀ s : RelayState,
      (stepEvent cfg s (.interrupt cs)).2 = RunStatus.finished 0 :=
    fun s => rfl
  refine ⟨runMain_exit_of_last cfg tty pre hpre _ 0 hk, ?_, ?_⟩ <;>
    rw [runMain_final, runLoop_last_state cfg pre hpre _ 0 hk] <;> rfl

/-- Witness for C10: an interrupt whose blocking wait collects child
status 9 still exits 0. -/
theorem interrupt_discards_status_witness :
    (runMain cfg0 true ([.selErr] ++ [.interrupt 9])).exitCode = some 0 ∧
    (runMain cfg0 true ([.selErr] ++ [.interrupt 9])).final.sigintSent = true ∧
    (runMain cfg0 true ([.selErr] ++ [.interrupt 9])).final.reaped = some 9 :=
  interrupt_discards_status cfg0 true [.selErr] (by decide) 9

end PtyWrapper
